import Mathlib

/-!
A shallow embedding of the `hwndloop` crate (src/lib.rs): an event loop backed
by a Win32 message window and a dedicated worker thread.  Producer threads
submit typed commands through a locked `VecDeque` paired with a posted wake
message, block on a flush barrier backed by a locked `Vec` of one-shot
senders, and tear the loop down through an idempotent `terminate`.

Modelling notes:
- The native Win32 message queue is FIFO per posting thread; for the
  single-producer scenarios of the spec the sequence of messages retrieved by
  `GetMessageW` is modelled as a plain list consumed in order.
- The shared `command_queue : VecDeque` is a list with `push_back` appending
  and `pop_front` taking the head; `flush_requests : Vec` is a list with
  `push` appending and `pop` removing the most recently appended element.
- Callback invocations, the startup handshake and the teardown actions are
  recorded as events in a trace; a Rust `panic!` / `unwrap` on `None` is the
  `Except.error Panic.panic` outcome.
-/

namespace HwndLoop

/-- `enum HwndLoopCommand<CommandType>` (lib.rs 26-30): either the internal
`Terminate` sentinel or a user command. -/
inductive HwndLoopCommand (C : Type) where
  | Terminate : HwndLoopCommand C
  | UserCommand : C → HwndLoopCommand C
  deriving DecidableEq

/-- The messages the worker's `GetMessageW` loop distinguishes
(lib.rs 178-201): the three reserved registered messages
`WM_HWNDLOOP_INIT`, `WM_HWNDLOOP_COMMAND`, `WM_HWNDLOOP_FLUSH`, and any
other (raw) message carrying payload `m`. -/
inductive WinMsg (M : Type) where
  | init : WinMsg M
  | command : WinMsg M
  | flush : WinMsg M
  | raw : M → WinMsg M
  deriving DecidableEq

/-- Observable actions of the worker thread, in the order they happen. -/
inductive Event (C M : Type) where
  | initHandshake : Event C M
  | handleCommand : C → Event C M
  | handleMessage : M → Event C M
  | flushSignal : Nat → Event C M
  | setUp : Event C M
  | installCallbacks : Event C M
  | tearDown : Event C M
  | detachCallbacks : Event C M
  | dropCallbacks : Event C M
  | destroyWindow : Event C M
  | unregisterClass : Event C M
  deriving DecidableEq

/-- A Rust `panic!` (including `Option::unwrap` on `None`). -/
inductive Panic where
  | panic : Panic
  deriving DecidableEq

/-- Result of running the worker's event loop on a list of retrieved
messages: the trace of events it produced, the remaining shared queues, and
whether it exited the loop via the `Terminate` sentinel. -/
structure LoopResult (C M : Type) where
  events : List (Event C M)
  commandQueue : List (HwndLoopCommand C)
  flushRequests : List Nat
  exited : Bool
  deriving DecidableEq

/-- `Vec::pop` (lib.rs 199): removes and returns the most recently pushed
element (the back of the list), or `none` when empty. -/
def vecPop {α : Type} : List α → Option (α × List α)
  | [] => none
  | [x] => some (x, [])
  | x :: y :: xs =>
    match vecPop (y :: xs) with
    | none => none
    | some (z, zs) => some (z, x :: zs)

/-- One iteration of the worker's event loop body (lib.rs 178-202),
dispatching on the retrieved message:
- `WM_HWNDLOOP_INIT`: send the startup handshake back to the constructor;
- `WM_HWNDLOOP_COMMAND`: lock the command queue; if nonempty, pop the front;
  `Terminate` exits the loop, `UserCommand c` invokes `handle_command`;
- `WM_HWNDLOOP_FLUSH`: lock the flush list and `pop().unwrap().send(())` —
  panics when the list is empty;
- any other message: `DispatchMessageW`, reaching `handle_message` through
  `wnd_proc` (callbacks are installed for the whole loop). -/
def processMsg {C M : Type} (m : WinMsg M) (cq : List (HwndLoopCommand C))
    (fr : List Nat) : Except Panic (LoopResult C M) :=
  match m with
  | .init => .ok ⟨[.initHandshake], cq, fr, false⟩
  | .command =>
    match cq with
    | [] => .ok ⟨[], [], fr, false⟩
    | .Terminate :: rest => .ok ⟨[], rest, fr, true⟩
    | .UserCommand c :: rest => .ok ⟨[.handleCommand c], rest, fr, false⟩
  | .flush =>
    match vecPop fr with
    | none => .error .panic
    | some (fid, fr2) => .ok ⟨[.flushSignal fid], cq, fr2, false⟩
  | .raw msg => .ok ⟨[.handleMessage msg], cq, fr, false⟩

/-- The worker's event loop (lib.rs 171-203) run over a list of messages
retrieved in order. The loop stops when it pops a `Terminate` command
(`exited = true`); an exhausted message list models the worker blocking in
`GetMessageW` (`exited = false`). -/
def runLoop {C M : Type} : List (WinMsg M) → List (HwndLoopCommand C) →
    List Nat → Except Panic (LoopResult C M)
  | [], cq, fr => .ok ⟨[], cq, fr, false⟩
  | m :: ms, cq, fr =>
    match processMsg m cq fr with
    | .error e => .error e
    | .ok r =>
      if r.exited then .ok r
      else
        match runLoop ms r.commandQueue r.flushRequests with
        | .error e => .error e
        | .ok r2 => .ok ⟨r.events ++ r2.events, r2.commandQueue, r2.flushRequests, r2.exited⟩

/-- The producer-visible shared state of a `HwndLoop` handle (lib.rs 66-72):
the locked command queue, the locked flush-request list (senders identified
by `Nat` ids), and the native message queue the producer posts into. -/
structure ProducerState (C M : Type) where
  commandQueue : List (HwndLoopCommand C)
  flushRequests : List Nat
  posted : List (WinMsg M)
  deriving DecidableEq

/-- Lock-level actions a producer-side operation performs, in program order:
take / release the command-queue or flush-list mutex, append to the locked
collection, call the native `PostMessageW`, or block on `rx.recv()`. -/
inductive LockAction where
  | lockCmd : LockAction
  | unlockCmd : LockAction
  | lockFlush : LockAction
  | unlockFlush : LockAction
  | append : LockAction
  | post : LockAction
  | blockRecv : LockAction
  deriving DecidableEq

/-- Scans an action trace tracking whether a mutex is held; `true` iff some
`post` action happens while a lock is held. -/
def postWhileLocked : List LockAction → Bool → Bool
  | [], _ => false
  | .lockCmd :: rest, _ => postWhileLocked rest true
  | .lockFlush :: rest, _ => postWhileLocked rest true
  | .unlockCmd :: rest, _ => postWhileLocked rest false
  | .unlockFlush :: rest, _ => postWhileLocked rest false
  | .post :: rest, locked => locked || postWhileLocked rest locked
  | _ :: rest, locked => postWhileLocked rest locked

/-- Scans an action trace tracking whether a mutex is held; `true` iff some
`blockRecv` action happens while a lock is held. -/
def recvWhileLocked : List LockAction → Bool → Bool
  | [], _ => false
  | .lockCmd :: rest, _ => recvWhileLocked rest true
  | .lockFlush :: rest, _ => recvWhileLocked rest true
  | .unlockCmd :: rest, _ => recvWhileLocked rest false
  | .unlockFlush :: rest, _ => recvWhileLocked rest false
  | .blockRecv :: rest, locked => locked || recvWhileLocked rest locked
  | _ :: rest, locked => recvWhileLocked rest locked

/-- Scans an action trace; `true` iff a mutex is still held at the end. -/
def lockedAfter : List LockAction → Bool → Bool
  | [], locked => locked
  | .lockCmd :: rest, _ => lockedAfter rest true
  | .lockFlush :: rest, _ => lockedAfter rest true
  | .unlockCmd :: rest, _ => lockedAfter rest false
  | .unlockFlush :: rest, _ => lockedAfter rest false
  | _ :: rest, locked => lockedAfter rest locked

/-- `HwndLoop::send_command_internal` (lib.rs 244-251): lock the command
queue, `push_back(cmd)`, `PostMessageW(WM_HWNDLOOP_COMMAND)`, panic if the
post returned `FALSE`, and release the mutex guard at the end of the
function (also on unwind).  `postOk` is the result of the native post.
Returns the action trace and the outcome. -/
def send_command_internal {C M : Type} (postOk : Bool) (s : ProducerState C M)
    (cmd : HwndLoopCommand C) : List LockAction × Except Panic (ProducerState C M) :=
  let s1 : ProducerState C M := { s with commandQueue := s.commandQueue ++ [cmd] }
  if postOk then
    ([.lockCmd, .append, .post, .unlockCmd],
      .ok { s1 with posted := s1.posted ++ [WinMsg.command] })
  else
    ([.lockCmd, .append, .post, .unlockCmd], .error .panic)

/-- `HwndLoop::send_command` (lib.rs 255-258): wraps the user command and
delegates to `send_command_internal`. -/
def send_command {C M : Type} (postOk : Bool) (s : ProducerState C M) (c : C) :
    List LockAction × Except Panic (ProducerState C M) :=
  send_command_internal postOk s (.UserCommand c)

/-- `HwndLoop::flush` (lib.rs 261-274): create a one-shot channel (sender id
`fid`), lock the flush list, `push(tx)`, `PostMessageW(WM_HWNDLOOP_FLUSH)`,
panic if the post returned `FALSE`, `drop(requests)` to release the mutex,
then block on `rx.recv()`. -/
def flush {C M : Type} (postOk : Bool) (s : ProducerState C M) (fid : Nat) :
    List LockAction × Except Panic (ProducerState C M) :=
  let s1 : ProducerState C M := { s with flushRequests := s.flushRequests ++ [fid] }
  if postOk then
    ([.lockFlush, .append, .post, .unlockFlush, .blockRecv],
      .ok { s1 with posted := s1.posted ++ [WinMsg.flush] })
  else
    ([.lockFlush, .append, .post, .unlockFlush], .error .panic)

/-- The state a `HwndLoop` handle owns for termination (lib.rs 66-72,
226-232): the atomic `terminated` flag, the `Option<JoinHandle>` slot, the
shared producer state, and a count of joins actually performed. -/
structure HandleState (C M : Type) where
  terminated : Bool
  joinHandle : Option Unit
  producer : ProducerState C M
  joinCount : Nat
  deriving DecidableEq

/-- `HwndLoop::terminate` (lib.rs 276-284): atomically swap the `terminated`
flag to `true`; if the old value was `false` (this caller won), enqueue the
`Terminate` sentinel via `send_command_internal`, take the join handle out
of its slot (`unwrap` panics were it already taken) and join the worker. -/
def terminate {C M : Type} (s : HandleState C M) : Except Panic (HandleState C M) :=
  let old := s.terminated
  let s1 : HandleState C M := { s with terminated := true }
  if old then .ok s1
  else
    match (send_command_internal true s1.producer .Terminate).2 with
    | .error e => .error e
    | .ok p =>
      match s1.joinHandle with
      | none => .error .panic
      | some _ => .ok { s1 with producer := p, joinHandle := none, joinCount := s1.joinCount + 1 }

/-- `impl Drop for HwndLoop` (lib.rs 287-291): dropping the handle calls
`terminate`. -/
def hwndLoopDrop {C M : Type} (s : HandleState C M) : Except Panic (HandleState C M) :=
  terminate s

/-- `n` successive calls to `terminate` on the same handle state, stopping
at the first panic. -/
def terminateN {C M : Type} : Nat → HandleState C M → Except Panic (HandleState C M)
  | 0, s => .ok s
  | n + 1, s =>
    match terminate s with
    | .error e => .error e
    | .ok s1 => terminateN n s1

/-- What `HwndLoop::wnd_proc` does with a message. -/
inductive WndProcOutcome (M : Type) where
  | defWindowProc : M → WndProcOutcome M
  | userHandleMessage : M → WndProcOutcome M
  deriving DecidableEq

/-- `HwndLoop::wnd_proc` (lib.rs 235-242): read the `HwndLoopWndExtra`
pointer from the window's extra slot; if it is null, return
`DefWindowProcA(hwnd, msg, w, l)`; otherwise forward to the installed
callbacks' `handle_message`.  The slot content is modelled as an `Option`:
`none` is the null pointer. -/
def wnd_proc {M : Type} (wndExtra : Option Unit) (m : M) : WndProcOutcome M :=
  match wndExtra with
  | none => .defWindowProc m
  | some _ => .userHandleMessage m

/-- One operation of a single producer thread: submit a command through
`send_command`, or post a raw message directly to the window. -/
inductive ProducerOp (C M : Type) where
  | sendCommandOp : C → ProducerOp C M
  | postRawOp : M → ProducerOp C M
  deriving DecidableEq

/-- The native messages a producer's operation sequence posts, in posting
order (the Win32 queue is FIFO for a single posting thread): `send_command`
posts one `WM_HWNDLOOP_COMMAND` wake, a raw post is the message itself. -/
def opsMsgs {C M : Type} : List (ProducerOp C M) → List (WinMsg M)
  | [] => []
  | .sendCommandOp _ :: t => .command :: opsMsgs t
  | .postRawOp m :: t => .raw m :: opsMsgs t

/-- The contents of the shared command queue produced by a producer's
operation sequence, in `push_back` order (each `send_command` appends its
command under the same lock that covers its wake post). -/
def opsCmds {C M : Type} : List (ProducerOp C M) → List (HwndLoopCommand C)
  | [] => []
  | .sendCommandOp c :: t => .UserCommand c :: opsCmds t
  | .postRawOp _ :: t => opsCmds t

/-- The dispatch event the worker produces for one producer operation. -/
def opEvent {C M : Type} : ProducerOp C M → Event C M
  | .sendCommandOp c => .handleCommand c
  | .postRawOp m => .handleMessage m

/-- Prepend events to the trace of a loop outcome (panics propagate). -/
def prependEvents {C M : Type} (evs : List (Event C M)) :
    Except Panic (LoopResult C M) → Except Panic (LoopResult C M)
  | .error e => .error e
  | .ok r => .ok ⟨evs ++ r.events, r.commandQueue, r.flushRequests, r.exited⟩

/-- Events the loop body can emit while it is running: the handshake,
`handle_command`, `handle_message` and flush-signal completions — never the
startup or teardown events. -/
def isDispatchEvent {C M : Type} : Event C M → Bool
  | .initHandshake => true
  | .handleCommand _ => true
  | .handleMessage _ => true
  | .flushSignal _ => true
  | _ => false

/-- The whole worker thread body (lib.rs 108-223): window creation and the
init post, then `set_up` (lib.rs 164), then installing the callbacks into
the window slot (lib.rs 166-169), then the event loop; if the loop exits
via `Terminate`, the teardown sequence `tear_down` (205), detach the
callbacks (208), drop them (211), `DestroyWindow` (214) and
`UnregisterClassW` (217-222). -/
def workerBody {C M : Type} (msgs : List (WinMsg M)) (cq : List (HwndLoopCommand C))
    (fr : List Nat) : Except Panic (List (Event C M)) :=
  match runLoop msgs cq fr with
  | .error e => .error e
  | .ok r =>
    .ok (Event.setUp :: Event.installCallbacks :: (r.events ++
      if r.exited then
        [Event.tearDown, Event.detachCallbacks, Event.dropCallbacks,
         Event.destroyWindow, Event.unregisterClass]
      else []))

/-- `Vec::pop` returns the most recently pushed element. -/
theorem vecPop_append {α : Type} (l : List α) (x : α) :
    vecPop (l ++ [x]) = some (x, l) := by
  induction l with
  | nil => rfl
  | cons a t ih =>
    cases t with
    | nil => rfl
    | cons b t2 =>
      simp only [List.cons_append] at ih ⊢
      rw [vecPop, ih]

theorem prependEvents_nil {C M : Type} (x : Except Panic (LoopResult C M)) :
    prependEvents [] x = x := by
  cases x with
  | error e => rfl
  | ok r => rfl

/-- Linearization of a single producer's operation sequence: if the worker's
message stream starts with the wakes/raw posts of `ops` (FIFO) and the
command queue starts with the commands of `ops` (appended in the same
order), the loop first emits exactly one dispatch event per operation, in
the operations' order, and then continues with the rest. -/
theorem runLoop_ops {C M : Type} (ops : List (ProducerOp C M)) (rest : List (WinMsg M))
    (cs : List (HwndLoopCommand C)) (fr : List Nat) :
    runLoop (opsMsgs ops ++ rest) (opsCmds ops ++ cs) fr =
      prependEvents (ops.map opEvent) (runLoop rest cs fr) := by
  induction ops generalizing fr with
  | nil =>
    simp only [opsMsgs, opsCmds, List.nil_append, List.map_nil, prependEvents_nil]
  | cons op t ih =>
    cases op with
    | sendCommandOp c =>
      simp only [opsMsgs, opsCmds, List.cons_append, List.map_cons, opEvent]
      rw [runLoop]
      simp only [processMsg]
      rw [ih]
      cases runLoop rest cs fr with
      | error e => rfl
      | ok r => simp [prependEvents]
    | postRawOp m =>
      simp only [opsMsgs, opsCmds, List.cons_append, List.map_cons, opEvent]
      rw [runLoop]
      simp only [processMsg]
      rw [ih]
      cases runLoop rest cs fr with
      | error e => rfl
      | ok r => simp [prependEvents]

/-- One loop iteration only ever emits dispatch events. -/
theorem processMsg_events_dispatch {C M : Type} (m : WinMsg M)
    (cq : List (HwndLoopCommand C)) (fr : List Nat) (r : LoopResult C M)
    (h : processMsg m cq fr = .ok r) : ∀ e ∈ r.events, isDispatchEvent e = true := by
  cases m with
  | init =>
    simp only [processMsg] at h
    cases h
    intro e he
    simp only [List.mem_singleton] at he
    subst he
    rfl
  | command =>
    cases cq with
    | nil =>
      simp only [processMsg] at h
      cases h
      intro e he
      simp at he
    | cons c rest =>
      cases c with
      | Terminate =>
        simp only [processMsg] at h
        cases h
        intro e he
        simp at he
      | UserCommand c =>
        simp only [processMsg] at h
        cases h
        intro e he
        simp only [List.mem_singleton] at he
        subst he
        rfl
  | flush =>
    simp only [processMsg] at h
    cases hv : vecPop fr with
    | none => rw [hv] at h; cases h
    | some p =>
      rw [hv] at h
      cases h
      intro e he
      simp only [List.mem_singleton] at he
      subst he
      rfl
  | raw m =>
    simp only [processMsg] at h
    cases h
    intro e he
    simp only [List.mem_singleton] at he
    subst he
    rfl

/-- The loop's whole trace consists of dispatch events only. -/
theorem runLoop_events_dispatch {C M : Type} (msgs : List (WinMsg M))
    (cq : List (HwndLoopCommand C)) (fr : List Nat) (r : LoopResult C M)
    (h : runLoop msgs cq fr = .ok r) : ∀ e ∈ r.events, isDispatchEvent e = true := by
  induction msgs generalizing cq fr r with
  | nil =>
    simp only [runLoop] at h
    cases h
    intro e he
    simp at he
  | cons m ms ih =>
    rw [runLoop] at h
    cases hp : processMsg m cq fr with
    | error e => rw [hp] at h; cases h
    | ok r1 =>
      rw [hp] at h
      dsimp only at h
      by_cases hex : r1.exited = true
      · rw [if_pos hex] at h
        injection h with h2
        subst h2
        exact processMsg_events_dispatch m cq fr r1 hp
      · rw [if_neg hex] at h
        cases hrest : runLoop ms r1.commandQueue r1.flushRequests with
        | error e => rw [hrest] at h; cases h
        | ok r2 =>
          rw [hrest] at h
          cases h
          intro e he
          simp only [List.mem_append] at he
          cases he with
          | inl h1 => exact processMsg_events_dispatch m cq fr r1 hp e h1
          | inr h2 => exact ih r1.commandQueue r1.flushRequests r2 hrest e h2

/-- A `terminate` call that lost the flag race leaves the state unchanged. -/
theorem terminate_of_terminated {C M : Type} (s : HandleState C M)
    (h : s.terminated = true) : terminate s = .ok s := by
  cases s with
  | mk t j p n =>
    simp only at h
    subst h
    rfl

/-- Any number of `terminate` calls after the flag is set are no-ops. -/
theorem terminateN_of_terminated {C M : Type} (n : Nat) (s : HandleState C M)
    (h : s.terminated = true) : terminateN n s = .ok s := by
  induction n with
  | zero => rfl
  | succ k ih =>
    rw [terminateN, terminate_of_terminated s h]
    exact ih

/-- C1: flush barrier, single producer. If one thread performs a sequence of
operations (`send_command` submissions and direct raw posts) and then calls
`flush()`, the worker dispatches every one of those operations — commands
through `handle_command`, raw messages through `handle_message` — before it
completes the flush signal that lets `flush()` return: the worker's trace is
exactly the dispatch events of the operations, in order, followed by the
flush signal.  (`fr ++ [fid]` is the flush-request list after `flush()`
appended its sender `fid`; the flush wake is the last message because the
native queue is FIFO for a single posting thread.) -/
theorem flush_barrier_single_producer {C M : Type} (ops : List (ProducerOp C M))
    (fr : List Nat) (fid : Nat) :
    runLoop (opsMsgs ops ++ [WinMsg.flush]) (opsCmds ops) (fr ++ [fid]) =
      .ok ⟨ops.map opEvent ++ [Event.flushSignal fid], [], fr, false⟩ := by
  have h := runLoop_ops ops [WinMsg.flush] [] (fr ++ [fid])
  rw [List.append_nil] at h
  rw [h]
  simp [runLoop, processMsg, vecPop_append, prependEvents]

/-- C2: single-producer FIFO. For any sequence of operations of one producer
thread (N commands interleaved with raw posts, N ≥ 0), the worker observes
exactly one dispatch event per operation, in the thread's exact submission /
posting order: commands reach `handle_command` in submission order,
interleaved with the thread's raw messages in their relative posting
order. -/
theorem single_producer_fifo_order {C M : Type} (ops : List (ProducerOp C M))
    (fr : List Nat) :
    runLoop (opsMsgs ops) (opsCmds ops) fr = .ok ⟨ops.map opEvent, [], fr, false⟩ := by
  have h := runLoop_ops ops [] [] fr
  rw [List.append_nil, List.append_nil] at h
  rw [h]
  simp [runLoop, prependEvents]

/-- C4: a command wake pops exactly the front of the command queue.  On an
empty queue the wake is a no-op that never crashes (the loop simply
continues); popping `Terminate` exits the loop with the rest of the queue
untouched; popping `UserCommand c` invokes `handle_command` with `c` and the
loop continues with the remaining messages. -/
theorem command_wake_pops_front {C M : Type} (ms : List (WinMsg M))
    (cs : List (HwndLoopCommand C)) (fr : List Nat) (c : C) :
    runLoop (WinMsg.command :: ms) ([] : List (HwndLoopCommand C)) fr = runLoop ms [] fr
    ∧ runLoop (WinMsg.command :: ms) (HwndLoopCommand.Terminate :: cs) fr =
        .ok ⟨[], cs, fr, true⟩
    ∧ processMsg (WinMsg.command : WinMsg M) (HwndLoopCommand.UserCommand c :: cs) fr =
        .ok ⟨[Event.handleCommand c], cs, fr, false⟩
    ∧ runLoop (WinMsg.command :: ms) (HwndLoopCommand.UserCommand c :: cs) fr =
        prependEvents [Event.handleCommand c] (runLoop ms cs fr) := by
  refine ⟨?_, rfl, rfl, ?_⟩
  · rw [runLoop]
    dsimp only [processMsg]
    cases h : runLoop ms ([] : List (HwndLoopCommand C)) fr with
    | error e => rfl
    | ok r => rfl
  · rw [runLoop]
    dsimp only [processMsg]
    cases h : runLoop ms cs fr with
    | error e => rfl
    | ok r => rfl

/-- C5: a flush wake completes exactly one pending signal, and it is the
most-recently-appended one (stack/LIFO order of `Vec::pop`), not the oldest:
with pending requests `fr ++ [fid]` (so `fid` was appended last), the worker
emits the single completion event for `fid` and leaves the older requests
`fr` pending. -/
theorem flush_wake_signals_most_recent {C M : Type} (cq : List (HwndLoopCommand C))
    (fr : List Nat) (fid : Nat) :
    processMsg (WinMsg.flush : WinMsg M) cq (fr ++ [fid]) =
      .ok ⟨[Event.flushSignal fid], cq, fr, false⟩ := by
  simp [processMsg, vecPop_append]

/-- C9: a flush wake received while the flush-request list is empty panics
(`pop().unwrap()` of `None`) and aborts the worker thread, whereas a command
wake on an empty command queue is a tolerated no-op: spurious flush wakes
are not tolerated, unlike spurious command wakes. -/
theorem spurious_flush_wake_panics {C M : Type} (ms : List (WinMsg M))
    (cq : List (HwndLoopCommand C)) :
    processMsg (WinMsg.flush : WinMsg M) cq [] = .error .panic
    ∧ runLoop (WinMsg.flush :: ms) cq [] = .error .panic
    ∧ processMsg (WinMsg.command : WinMsg M) ([] : List (HwndLoopCommand C)) [] =
        .ok ⟨[], [], [], false⟩ :=
  ⟨rfl, rfl, rfl⟩

/-- C6: a failed native post is never silently dropped.  Whenever
`PostMessageW` returns `FALSE` (`postOk = false`) during `send_command`,
`send_command_internal` or `flush`, the posting thread panics instead of
returning normally, for every command value, every flush call and every
prior state. -/
theorem post_failure_aborts {C M : Type} (s : ProducerState C M) (c : C)
    (cmd : HwndLoopCommand C) (fid : Nat) :
    (send_command false s c).2 = .error .panic
    ∧ (send_command_internal false s cmd).2 = .error .panic
    ∧ (flush false s fid).2 = .error .panic :=
  ⟨rfl, rfl, rfl⟩

/-- C7 counterexample: the claim that the mutex is never held across the
native `PostMessageW` call is false on the code.  In `send_command` the
command-queue guard taken at lib.rs 245 is alive until the end of the
function, past the post at 247; in `flush` the flush-list guard taken at 263
is dropped only at 271, past the post at 266.  At a concrete input both
traces perform the post while the lock is held. -/
theorem lock_held_across_post_cex :
    postWhileLocked (send_command (C := Nat) (M := Nat) true ⟨[], [], []⟩ 0).1 false = true
    ∧ postWhileLocked (flush (C := Nat) (M := Nat) true ⟨[], [], []⟩ 0).1 false = true :=
  ⟨rfl, rfl⟩

/-- C7 (amended): in every execution of `send_command` and `flush`, the
mutex protecting the `CommandQueue` (respectively the `FlushRequestList`) is
acquired before the append and held across both the append and the native
`PostMessageW` call; it is released before the operation finishes — in
particular, `flush` releases the lock (`drop(requests)`) before blocking on
the completion signal, so the worker can complete the request. -/
theorem lock_discipline_amended {C M : Type} (postOk : Bool) (s : ProducerState C M)
    (c : C) (fid : Nat) :
    postWhileLocked (send_command postOk s c).1 false = true
    ∧ lockedAfter (send_command postOk s c).1 false = false
    ∧ postWhileLocked (flush postOk s fid).1 false = true
    ∧ recvWhileLocked (flush postOk s fid).1 false = false
    ∧ lockedAfter (flush postOk s fid).1 false = false := by
  cases postOk with
  | false => exact ⟨rfl, rfl, rfl, rfl, rfl⟩
  | true => exact ⟨rfl, rfl, rfl, rfl, rfl⟩

/-- C3: `terminate()` is idempotent.  From a live handle (flag unset, join
handle present), the first call wins the atomic false-to-true transition of
the `terminated` flag and is the only one to enqueue the `Terminate`
sentinel, post its wake and join the worker (join handle taken, join count
incremented once); any number of further `terminate()` calls, and the
implicit call from `Drop`, leave the state unchanged, perform no join and
never panic — the teardown sequence runs exactly once. -/
theorem terminate_idempotent {C M : Type} (n : Nat) (s : HandleState C M)
    (h1 : s.terminated = false) (h2 : s.joinHandle = some ()) :
    ∃ s1 : HandleState C M,
      terminate s = .ok s1
      ∧ s1.terminated = true
      ∧ s1.joinHandle = none
      ∧ s1.producer.commandQueue = s.producer.commandQueue ++ [HwndLoopCommand.Terminate]
      ∧ s1.producer.posted = s.producer.posted ++ [WinMsg.command]
      ∧ s1.producer.flushRequests = s.producer.flushRequests
      ∧ s1.joinCount = s.joinCount + 1
      ∧ terminateN n s1 = .ok s1
      ∧ hwndLoopDrop s1 = .ok s1 := by
  obtain ⟨t, j, ⟨pcq, pfr, pp⟩, jc⟩ := s
  dsimp only at h1 h2
  subst h1
  subst h2
  exact ⟨⟨true, none, ⟨pcq ++ [HwndLoopCommand.Terminate], pfr, pp ++ [WinMsg.command]⟩, jc + 1⟩,
    rfl, rfl, rfl, rfl, rfl, rfl, rfl,
    terminateN_of_terminated n _ rfl,
    terminate_of_terminated _ rfl⟩

/-- Witness for C3 at a concrete input: a fresh handle, three `terminate`
calls (one explicit winner plus two redundant ones) and a final `Drop`. -/
theorem terminate_idempotent_witness :
    ∃ s1 : HandleState Nat Nat,
      terminate ⟨false, some (), ⟨[], [], []⟩, 0⟩ = .ok s1
      ∧ s1.terminated = true
      ∧ s1.joinHandle = none
      ∧ s1.producer.commandQueue = [HwndLoopCommand.Terminate]
      ∧ s1.producer.posted = [WinMsg.command]
      ∧ s1.producer.flushRequests = []
      ∧ s1.joinCount = 1
      ∧ terminateN 2 s1 = .ok s1
      ∧ hwndLoopDrop s1 = .ok s1 :=
  terminate_idempotent 2 ⟨false, some (), ⟨[], [], []⟩, 0⟩ rfl rfl

/-- C8: setup/teardown ordering.  For every execution of the worker that
exits its loop via the `Terminate` sentinel, the full worker trace is
`set_up`, then the installation of the callbacks, then only dispatch events
(every `handle_command` / `handle_message` / flush completion), then
`tear_down`, the detach and drop of the callbacks, `DestroyWindow` and
`UnregisterClassW` — so `set_up` completes before any callback invocation,
and `tear_down` completes after the last `handle_command` and before the
native window handle is destroyed. -/
theorem setup_first_teardown_last {C M : Type} (msgs : List (WinMsg M))
    (cq : List (HwndLoopCommand C)) (fr : List Nat) (r : LoopResult C M)
    (hr : runLoop msgs cq fr = .ok r) (hx : r.exited = true) :
    workerBody msgs cq fr = .ok
      (Event.setUp :: Event.installCallbacks :: (r.events ++
        [Event.tearDown, Event.detachCallbacks, Event.dropCallbacks,
         Event.destroyWindow, Event.unregisterClass]))
    ∧ ∀ e ∈ r.events, isDispatchEvent e = true := by
  constructor
  · unfold workerBody
    rw [hr]
    dsimp only
    rw [if_pos hx]
  · exact runLoop_events_dispatch msgs cq fr r hr

/-- Witness for C8 at a concrete input: one command wake delivering the
`Terminate` sentinel. -/
theorem setup_first_teardown_last_witness :
    workerBody (C := Nat) (M := Nat) [WinMsg.command] [HwndLoopCommand.Terminate] [] = .ok
        (Event.setUp :: Event.installCallbacks :: (([] : List (Event Nat Nat)) ++
          [Event.tearDown, Event.detachCallbacks, Event.dropCallbacks,
           Event.destroyWindow, Event.unregisterClass]))
    ∧ ∀ e ∈ ([] : List (Event Nat Nat)), isDispatchEvent e = true :=
  setup_first_teardown_last [WinMsg.command] [HwndLoopCommand.Terminate] []
    ⟨[], [], [], true⟩ rfl rfl

/-- C10: while no callbacks object is installed in the window's extra slot
(the pointer `GetWindowLongPtrA(hwnd, 0)` is null — during window creation
before installation, or after teardown detached it), `wnd_proc` returns
`DefWindowProcA` for every raw message and the user's `handle_message` is
never invoked. -/
theorem null_wnd_extra_default_dispatch {M : Type} (m : M) :
    wnd_proc none m = WndProcOutcome.defWindowProc m :=
  rfl

end HwndLoop
